import Mathlib

/-!
# Verification of the metrics-backend forecasting and anomaly engine

A shallow embedding of the core logic of the `anomaly_detection.predictions`
package (Django/Python) and proofs about it.

Conventions of the embedding:
* SQL / Django `NULL`-able scalars become `Option ℚ`; floats are embedded as
  rationals, except where NaN is relevant (see `FloatVal`).
* SQL three-valued comparisons in `CASE WHEN` conditions: a comparison with a
  `NULL` operand never matches (it is unknown, treated as false by `WHEN`).
* Dates and datetimes become integers (day numbers); a `timedelta` of `n` days
  is the integer `n`.
* Database querysets become Lean lists, in the order produced by the query.
-/

namespace MetricsBackend

/-! ## Anomaly scorer (`Metric.anomaly_degree`, models.py)

`anomaly_degree` is a persisted generated column defined by a nested SQL
`CASE` expression built with Django `Case`/`When`:

```
Case(
  When(predicted_value__isnull=True, then=Value(None)),
  default=Case(
    When(value=0, then=Case(
      When(upper_value__lt=0, then=Value(1.0)),
      When(lower_value__gt=0, then=Value(-1.0)),
      default=Value(0.0))),
    When(value__gt=F('upper_value'), then=(F('value') - F('upper_value')) / F('value')),
    When(value__lt=F('lower_value'), then=(F('value') - F('lower_value')) / F('value')),
    default=Value(0.0)))
```
-/

/-- SQL comparison `a < b` as used in a `WHEN` condition: false when either
operand is `NULL`. -/
def sqlLt (a b : Option ℚ) : Bool :=
  match a, b with
  | some x, some y => decide (x < y)
  | _, _ => false

/-- SQL comparison `a > b` as used in a `WHEN` condition: false when either
operand is `NULL`. -/
def sqlGt (a b : Option ℚ) : Bool :=
  match a, b with
  | some x, some y => decide (x > y)
  | _, _ => false

/-- The inner `CASE` for the `value = 0` branch of `anomaly_degree`:
`+1.0` when `upper_value < 0`, `-1.0` when `lower_value > 0`, else `0.0`.
(All three outcomes are non-`NULL`.) -/
def zeroValueDegree (lower upper : Option ℚ) : ℚ :=
  if sqlLt upper (some 0) then 1
  else if sqlGt lower (some 0) then -1
  else 0

/-- The `anomaly_degree` generated column of `Metric`, as the database
evaluates the `CASE` expression above on one row
`(value, predicted_value, lower_value, upper_value)`.

In the two division branches the matched `WHEN` condition guarantees both
operands are non-`NULL` and `value ≠ 0` (a zero value is caught by the
preceding `WHEN value=0`), so the arithmetic is the plain rational one. -/
def anomalyDegree (value predicted lower upper : Option ℚ) : Option ℚ :=
  match predicted with
  | none => none
  | some _ =>
    match value with
    | none => some 0
    | some v =>
      if v = 0 then some (zeroValueDegree lower upper)
      else if sqlGt (some v) upper then some ((v - upper.getD 0) / v)
      else if sqlLt (some v) lower then some ((v - lower.getD 0) / v)
      else some 0

/-- The anomaly-degree rules exactly as the specification states them,
evaluated in order with first match winning:
1. predicted value null ⇒ null;
2. observed value exactly 0 ⇒ +1.0 if upper < 0, -1.0 if lower > 0, else 0.0;
3. observed > upper ⇒ (observed − upper) / observed;
4. observed < lower ⇒ (observed − lower) / observed;
5. otherwise 0.0.
A comparison mentioning an absent (null) bound or value does not match. -/
def anomalyDegreeSpec (value predicted lower upper : Option ℚ) : Option ℚ :=
  if predicted = none then none
  else if value = some 0 then
    some (if sqlLt upper (some 0) then 1 else if sqlGt lower (some 0) then -1 else 0)
  else if sqlGt value upper then
    some ((value.getD 0 - upper.getD 0) / value.getD 0)
  else if sqlLt value lower then
    some ((value.getD 0 - lower.getD 0) / value.getD 0)
  else some 0

example : anomalyDegree (some 0) (some 1) (some (-5)) (some (-1)) = some 1 := by decide
example : anomalyDegree (some 0) (some 1) (some 2) (some 5) = some (-1) := by decide
example : anomalyDegree (some 0) (some 1) (some (-1)) (some 1) = some 0 := by decide
example : anomalyDegree (some 1) none (some 0) (some 0) = none := by decide

/-- **C1.** The generated `anomaly_degree` column computes exactly the
first-match-wins rule chain of the specification: null when the predicted
value is null; for a zero observed value +1.0 / -1.0 / 0.0 according to the
band's sign; `(observed − upper)/observed` above the band;
`(observed − lower)/observed` below it; 0.0 otherwise. -/
theorem anomalyDegree_eq_spec_rules (value predicted lower upper : Option ℚ) :
    anomalyDegree value predicted lower upper =
      anomalyDegreeSpec value predicted lower upper := by
  cases predicted with
  | none => rfl
  | some p =>
    cases value with
    | none => simp [anomalyDegree, anomalyDegreeSpec, sqlGt, sqlLt]
    | some v =>
      by_cases hv : v = 0
      · subst hv
        simp [anomalyDegree, anomalyDegreeSpec, zeroValueDegree]
      · simp [anomalyDegree, anomalyDegreeSpec, hv, Option.some.injEq]

/-- **C2.** Refuted range invariant: the stored anomaly degree is *not* always
in `[-1, 1]` when non-null, contrary to the claim (and to the field's own
`help_text`, which documents the range `-1 … +1`).  For the row
`value = 1, predicted_value = 1, lower_value = -2, upper_value = -1` the
`value > upper_value` branch yields `(1 − (−1)) / 1 = 2 > 1`.
(The other half of the claim — degree is null iff the predicted value is
null — does hold; see `anomalyDegree_isNone_iff`.) -/
theorem anomalyDegree_range_violated :
    anomalyDegree (some 1) (some 1) (some (-2)) (some (-1)) = some 2 ∧ ¬ ((2 : ℚ) ≤ 1) := by
  constructor
  · norm_num [anomalyDegree, sqlGt, sqlLt]
  · norm_num

/-- The half of C2 that the code does satisfy: the anomaly degree is null
exactly when the predicted value is null (every branch of the inner `CASE`
produces a non-null value). -/
theorem anomalyDegree_isNone_iff (value predicted lower upper : Option ℚ) :
    anomalyDegree value predicted lower upper = none ↔ predicted = none := by
  cases predicted with
  | none => simp [anomalyDegree]
  | some p =>
    cases value with
    | none => simp [anomalyDegree]
    | some v =>
      simp only [anomalyDegree, reduceCtorEq, iff_false]
      by_cases hv : v = 0
      · simp [hv]
      · rw [if_neg hv]
        split
        · simp
        · split <;> simp

/-! ## Forecast model training and prediction (`Predictor`, models.py)

`Predictor.train` builds a dataframe of `(ds = date, y = value)` rows from
`Metric.objects.filter(date__lt=self.last_training_date, region=...)
.order_by('date')`, applies abort guards, trims leading rows, and fits a
Prophet model.  The dataframe is embedded as a `List (ℤ × Option ℚ)` of
`(ds, y)` rows in query (date) order.

Pandas semantics that matter here:
* `df['y'].isna().all()` — every value is null;
* `df['y'].eq(0).all()` — every value is non-null and equal to 0
  (`NaN.eq(0)` is `False`);
* `df["y"] != 0` is `True` for NaN (null) entries, so
  `df[df["y"] != 0].iloc[0]` is the first row whose value is *null or
  non-zero*, not the first non-null non-zero row.
-/

/-- `Predictor.EXPIRY_DAYS`. -/
def EXPIRY_DAYS : ℤ := 30

/-- `Predictor.MIN_DAYS_FOR_TRAINING = int(365*2)`. -/
def MIN_DAYS_FOR_TRAINING : ℕ := 365 * 2

/-- The training dataframe rows: the history restricted to dates strictly
before the training reference date, in date order
(`Metric.objects.filter(date__lt=...).order_by('date')`). -/
def metricRows (history : List (ℤ × Option ℚ)) (refDate : ℤ) : List (ℤ × Option ℚ) :=
  history.filter (fun r => decide (r.1 < refDate))

/-- `df[df["y"] != 0].iloc[0]`: the first row whose value is not a non-null
zero (pandas `NaN != 0` is `True`, so a null row qualifies). -/
def firstNonZeroRow (rows : List (ℤ × Option ℚ)) : Option (ℤ × Option ℚ) :=
  rows.find? (fun r => !decide (r.2 = some 0))

/-- `df.loc[df['ds'] < first_non_zero['ds'], "y"] = None`: null the value of
every row dated strictly before the `firstNonZeroRow` (when one exists). -/
def trimmedRows (history : List (ℤ × Option ℚ)) (refDate : ℤ) : List (ℤ × Option ℚ) :=
  let rows := metricRows history refDate
  match firstNonZeroRow rows with
  | some fnz => rows.map (fun r => if r.1 < fnz.1 then (r.1, none) else r)
  | none => rows

/-- `df["y"].count()` after trimming: the number of non-null values. -/
def usableCount (history : List (ℤ × Option ℚ)) (refDate : ℤ) : ℕ :=
  ((trimmedRows history refDate).filter (fun r => r.2.isSome)).length

/-- The data-preparation phase of `Predictor.train`: returns the prepared
dataframe, or `none` when training aborts (empty data, all values null,
all values zero, or fewer than `MIN_DAYS_FOR_TRAINING` usable points after
trimming). -/
def prepare (history : List (ℤ × Option ℚ)) (refDate : ℤ) : Option (List (ℤ × Option ℚ)) :=
  let rows := metricRows history refDate
  if rows.isEmpty then none
  else if rows.all (fun r => decide (r.2 = none)) then none
  else if rows.all (fun r => decide (r.2 = some 0)) then none
  else if usableCount history refDate < MIN_DAYS_FOR_TRAINING then none
  else some (trimmedRows history refDate)

/-- The external Prophet fitting engine (`Prophet(...).fit(df)` followed by
`model_to_json`), abstracted — as the spec directs for the third-party
statistical routine — as a deterministic function of the prepared training
data; the serialized weights are modelled as the prepared data itself. -/
def prophetFit (df : List (ℤ × Option ℚ)) : List (ℤ × Option ℚ) := df

/-- The in-sample trend curve produced by the external Prophet engine
(`model.predict(make_future_dataframe(periods=0))['trend']`), abstracted as a
deterministic function of the fitted weights: one point per training row. -/
def prophetTrendCurve (w : List (ℤ × Option ℚ)) : List ℚ := w.map (fun _ => 0)

/-- The 365-point yearly seasonality curve produced by the external Prophet
engine (`predict_seasonal_components` over dates starting 2017-01-01),
abstracted as a deterministic function of the fitted weights. -/
def prophetSeasonalityCurve (_w : List (ℤ × Option ℚ)) : List ℚ := List.replicate 365 0

/-- The `Predictor` model row: region, training reference date
(`last_training_date`), and the trained artifacts, all null until trained. -/
structure Predictor where
  region : ℕ
  last_training_date : ℤ
  weights : Option (List (ℤ × Option ℚ)) := none
  yearly_seasonality : Option (List ℚ) := none
  trend : Option (List ℚ) := none
deriving DecidableEq

/-- `Predictor.is_trained`: whether `weights` is non-null. -/
def Predictor.is_trained (p : Predictor) : Bool := p.weights.isSome

/-- `Predictor.train(force)`: no-op when already trained and not forced;
otherwise prepare the data (aborting and leaving the model untouched when
preparation fails) and store the fitted weights, trend and seasonality. -/
def Predictor.trainOn (p : Predictor) (history : List (ℤ × Option ℚ)) (force : Bool) :
    Predictor :=
  if p.is_trained && !force then p
  else
    match prepare history p.last_training_date with
    | none => p
    | some df =>
      { p with
        weights := some (prophetFit df)
        trend := some (prophetTrendCurve (prophetFit df))
        yearly_seasonality := some (prophetSeasonalityCurve (prophetFit df)) }

/-- One row of `Predictor.predict`'s result (`PredictionResult` TypedDict). -/
structure PredictionResult where
  datetime : ℤ
  yhat : ℚ
  yhat_lower : ℚ
  yhat_upper : ℚ
deriving DecidableEq

/-- The external Prophet inference routine (`model_from_json` +
`prophet.predict`), abstracted as a deterministic function of the weights and
the requested dates: one result row per requested date. -/
def prophetPredict (_w : List (ℤ × Option ℚ)) (dates : List ℤ) : List PredictionResult :=
  dates.map (fun d => ⟨d, 0, 0, 0⟩)

/-- `Predictor.predict(dates)`: train lazily when untrained, then return
`None` when still untrained, else one forecast row per date. -/
def Predictor.predictDates (p : Predictor) (history : List (ℤ × Option ℚ))
    (dates : List ℤ) : Option (List PredictionResult) :=
  let p1 := if p.is_trained then p else p.trainOn history false
  match p1.weights with
  | none => none
  | some w => some (prophetPredict w dates)

/-- Preparation returns `none` under each of the four abort conditions. -/
lemma prepare_eq_none_of_insufficient (history : List (ℤ × Option ℚ)) (refDate : ℤ)
    (h : metricRows history refDate = [] ∨
         (metricRows history refDate).all (fun r => decide (r.2 = none)) = true ∨
         (metricRows history refDate).all (fun r => decide (r.2 = some 0)) = true ∨
         usableCount history refDate < MIN_DAYS_FOR_TRAINING) :
    prepare history refDate = none := by
  unfold prepare
  rcases h with h | h | h | h
  · simp [h]
  · by_cases h0 : (metricRows history refDate).isEmpty <;> simp [h0, h]
  · by_cases h0 : (metricRows history refDate).isEmpty
    · simp [h0]
    · by_cases h1 : (metricRows history refDate).all (fun r => decide (r.2 = none)) = true <;>
        simp [h0, h1, h]
  · by_cases h0 : (metricRows history refDate).isEmpty
    · simp [h0]
    · by_cases h1 : (metricRows history refDate).all (fun r => decide (r.2 = none)) = true
      · simp [h0, h1]
      · by_cases h2 : (metricRows history refDate).all (fun r => decide (r.2 = some 0)) = true <;>
          simp [h0, h1, h2, h]

/-- **C3.** Training never produces a trained model when the usable history is
insufficient: for an untrained model, if the history (restricted to dates
before the training reference date) is empty, all null, all zero, or leaves
fewer than 730 usable non-null points after trimming, then `train` leaves
weights, seasonality and trend null. -/
theorem train_insufficient_leaves_untrained
    (p : Predictor) (history : List (ℤ × Option ℚ)) (force : Bool)
    (hw : p.weights = none) (hs : p.yearly_seasonality = none) (ht : p.trend = none)
    (hinsuf : metricRows history p.last_training_date = [] ∨
              (metricRows history p.last_training_date).all (fun r => decide (r.2 = none)) = true ∨
              (metricRows history p.last_training_date).all (fun r => decide (r.2 = some 0)) = true ∨
              usableCount history p.last_training_date < MIN_DAYS_FOR_TRAINING) :
    (p.trainOn history force).weights = none ∧
    (p.trainOn history force).yearly_seasonality = none ∧
    (p.trainOn history force).trend = none := by
  have hprep := prepare_eq_none_of_insufficient history p.last_training_date hinsuf
  unfold Predictor.trainOn
  have htrained : p.is_trained = false := by simp [Predictor.is_trained, hw]
  simp [htrained, hprep, hw, hs, ht]

/-- Witness for C3: a model with an empty history stays untrained. -/
theorem train_insufficient_leaves_untrained_witness :
    ((⟨0, 0, none, none, none⟩ : Predictor).trainOn [] false).weights = none ∧
    ((⟨0, 0, none, none, none⟩ : Predictor).trainOn [] false).yearly_seasonality = none ∧
    ((⟨0, 0, none, none, none⟩ : Predictor).trainOn [] false).trend = none :=
  train_insufficient_leaves_untrained ⟨0, 0, none, none, none⟩ [] false rfl rfl rfl
    (Or.inl rfl)

/-- The first row carrying a genuine observation: non-null *and* non-zero.
This is the reading of the claim's "first non-zero/non-null value". -/
def firstUsableRow (rows : List (ℤ × Option ℚ)) : Option (ℤ × Option ℚ) :=
  rows.find? (fun r => !decide (r.2 = none) && !decide (r.2 = some 0))

/-- The claim C4, as stated, as a boolean predicate on one history: every
record of the trimmed dataframe dated strictly before the first non-zero
non-null value has a null value. -/
def leadingRecordsNulled (history : List (ℤ × Option ℚ)) (refDate : ℤ) : Bool :=
  match firstUsableRow (metricRows history refDate) with
  | some fu =>
    (trimmedRows history refDate).all
      (fun r => !decide (r.1 < fu.1) || decide (r.2 = none))
  | none => true

/-- **C4, counterexample.** The trim does *not* null every record before the
first non-zero non-null value: pandas `NaN != 0` is `True`, so a leading null
row halts the trim and a zero that sits between that null and the first real
value survives.  History `[(0, null), (1, 0), (2, 1)]` (reference date 10):
the first non-zero non-null value is at date 2, yet the zero at date 1 is
preserved, not nulled. -/
theorem leading_zero_after_null_not_nulled :
    leadingRecordsNulled [(0, none), (1, some 0), (2, some 1)] 10 = false ∧
    trimmedRows [(0, none), (1, some 0), (2, some 1)] 10 =
      [(0, none), (1, some 0), (2, some 1)] := by
  constructor <;> rfl

/-- **C4, amended.** During training, after restricting the history to dates
strictly before the reference date, all records dated strictly before the
first row whose value is *null or non-zero* (pandas `y != 0`) have their
values nulled, while every record from that row on — zero values included —
is preserved unchanged. -/
theorem trim_nulls_before_first_nonzero_or_null_row
    (history : List (ℤ × Option ℚ)) (refDate : ℤ) (fnz : ℤ × Option ℚ)
    (hfnz : firstNonZeroRow (metricRows history refDate) = some fnz) :
    (∀ r ∈ trimmedRows history refDate, r.1 < fnz.1 → r.2 = none) ∧
    (∀ r ∈ metricRows history refDate, ¬ r.1 < fnz.1 → r ∈ trimmedRows history refDate) := by
  simp only [trimmedRows, hfnz]
  constructor
  · intro r hr hlt
    rcases List.mem_map.mp hr with ⟨r0, _hr0, heq⟩
    by_cases h0 : r0.1 < fnz.1
    · rw [if_pos h0] at heq
      exact heq ▸ rfl
    · rw [if_neg h0] at heq
      exact absurd (heq ▸ hlt) h0
  · intro r hr hnlt
    exact List.mem_map.mpr ⟨r, hr, by rw [if_neg hnlt]⟩

/-- Witness for the amended C4: a leading real zero is nulled and the later
rows survive. -/
theorem trim_nulls_before_first_nonzero_or_null_row_witness :
    (∀ r ∈ trimmedRows [(0, some 0), (1, some 2)] 10, r.1 < 1 → r.2 = none) ∧
    (∀ r ∈ metricRows [(0, some 0), (1, some 2)] 10, ¬ r.1 < 1 →
      r ∈ trimmedRows [(0, some 0), (1, some 2)] 10) :=
  trim_nulls_before_first_nonzero_or_null_row [(0, some 0), (1, some 2)] 10 (1, some 2) rfl

/-- **C5.** For an untrained model, `predict` first attempts training once,
lazily, from the existing history (its result is exactly the dispatch on the
lazily trained state's weights); if the model is still untrained afterwards,
`predict` returns an absent result (`none`) — a soft outcome, not an
exception (the embedding is a total function). -/
theorem predict_untrained_trains_lazily_else_none
    (p : Predictor) (history : List (ℤ × Option ℚ)) (dates : List ℤ)
    (hw : p.weights = none) :
    p.predictDates history dates =
      (match (p.trainOn history false).weights with
       | none => none
       | some w => some (prophetPredict w dates)) ∧
    ((p.trainOn history false).weights = none → p.predictDates history dates = none) := by
  have htrained : p.is_trained = false := by simp [Predictor.is_trained, hw]
  constructor
  · unfold Predictor.predictDates
    rw [htrained]
    simp
  · intro hstill
    unfold Predictor.predictDates
    rw [htrained]
    simp [hstill]

/-- Witness for C5: a fresh model with no history predicts nothing. -/
theorem predict_untrained_trains_lazily_else_none_witness :
    (⟨0, 0, none, none, none⟩ : Predictor).predictDates [] [5] =
      (match ((⟨0, 0, none, none, none⟩ : Predictor).trainOn [] false).weights with
       | none => none
       | some w => some (prophetPredict w [5])) ∧
    (((⟨0, 0, none, none, none⟩ : Predictor).trainOn [] false).weights = none →
      (⟨0, 0, none, none, none⟩ : Predictor).predictDates [] [5] = none) :=
  predict_untrained_trains_lazily_else_none ⟨0, 0, none, none, none⟩ [] [5] rfl

/-! ## Model cache / lifecycle (`PredictorManager.get_not_expired`, managers.py)

`get_not_expired(region_id, date)` filters predictors of the region whose
`last_training_date` lies in `[date - EXPIRY_DAYS, date]` and returns
`.latest('last_training_date')` — the row with the greatest training date —
raising `DoesNotExist` (embedded as `none`) when the window is empty. -/

/-- One step of taking the row with the maximal `last_training_date`. -/
def latestStep (acc : Option Predictor) (p : Predictor) : Option Predictor :=
  match acc with
  | none => some p
  | some q => if q.last_training_date < p.last_training_date then some p else some q

/-- Django's `.latest('last_training_date')` on a queryset: the row with the
greatest `last_training_date`, or `none` for an empty queryset. -/
def latestByTrainingDate (l : List Predictor) : Option Predictor :=
  l.foldl latestStep none

/-- The membership filter of `get_not_expired`: same region, and
`last_training_date` within `[date - EXPIRY_DAYS, date]`. -/
def notExpiredFilter (regionId : ℕ) (date : ℤ) (p : Predictor) : Bool :=
  decide (p.region = regionId) && decide (p.last_training_date ≤ date) &&
    decide (date - EXPIRY_DAYS ≤ p.last_training_date)

/-- `PredictorManager.get_not_expired(region_id, date)`. -/
def getNotExpired (db : List Predictor) (regionId : ℕ) (date : ℤ) : Option Predictor :=
  latestByTrainingDate (db.filter (notExpiredFilter regionId date))

lemma latestStep_ne_none (acc : Option Predictor) (p : Predictor) :
    latestStep acc p ≠ none := by
  cases acc with
  | none => simp [latestStep]
  | some q =>
    simp only [latestStep]
    split <;> simp

lemma foldl_latestStep_eq_none_iff (l : List Predictor) :
    ∀ acc, l.foldl latestStep acc = none ↔ (acc = none ∧ l = []) := by
  induction l with
  | nil => simp
  | cons h t ih =>
    intro acc
    rw [List.foldl_cons, ih]
    simp [latestStep_ne_none acc h]

lemma foldl_latestStep_mem (l : List Predictor) :
    ∀ acc p, l.foldl latestStep acc = some p → p ∈ l ∨ acc = some p := by
  induction l with
  | nil => intro acc p h; exact Or.inr h
  | cons hd t ih =>
    intro acc p h
    rw [List.foldl_cons] at h
    rcases ih (latestStep acc hd) p h with hmem | hstep
    · exact Or.inl (List.mem_cons_of_mem hd hmem)
    · cases acc with
      | none =>
        simp only [latestStep, Option.some.injEq] at hstep
        exact Or.inl (hstep ▸ List.mem_cons_self hd t)
      | some q =>
        simp only [latestStep] at hstep
        split at hstep
        · exact Or.inl (Option.some.inj hstep ▸ List.mem_cons_self hd t)
        · exact Or.inr hstep

lemma latestStep_le (acc : Option Predictor) (p r : Predictor)
    (h : latestStep acc p = some r) :
    p.last_training_date ≤ r.last_training_date ∧
    ∀ q, acc = some q → q.last_training_date ≤ r.last_training_date := by
  cases acc with
  | none =>
    simp only [latestStep, Option.some.injEq] at h
    exact ⟨h ▸ le_refl _, fun q hq => by cases hq⟩
  | some q0 =>
    simp only [latestStep] at h
    split at h
    · rename_i hlt
      cases h
      exact ⟨le_refl _, fun q hq => by cases hq; exact le_of_lt hlt⟩
    · rename_i hnlt
      cases h
      exact ⟨le_of_not_lt hnlt, fun q hq => by cases hq; exact le_refl _⟩

lemma foldl_latestStep_max (l : List Predictor) :
    ∀ acc p, l.foldl latestStep acc = some p →
      (∀ q ∈ l, q.last_training_date ≤ p.last_training_date) ∧
      (∀ q, acc = some q → q.last_training_date ≤ p.last_training_date) := by
  induction l with
  | nil =>
    intro acc p h
    exact ⟨fun q hq => absurd hq (List.not_mem_nil q),
      fun q hq => by rw [List.foldl_nil] at h; rw [hq] at h; cases h; exact le_refl _⟩
  | cons hd t ih =>
    intro acc p h
    rw [List.foldl_cons] at h
    obtain ⟨hmem, hacc⟩ := ih (latestStep acc hd) p h
    cases hs : latestStep acc hd with
    | none => exact absurd hs (latestStep_ne_none acc hd)
    | some r =>
      obtain ⟨hhd, hprev⟩ := latestStep_le acc hd r hs
      have hr : r.last_training_date ≤ p.last_training_date := hacc r hs
      constructor
      · intro q hq
        rcases List.mem_cons.mp hq with hq | hq
        · exact hq ▸ le_trans hhd hr
        · exact hmem q hq
      · intro q hq
        exact le_trans (hprev q hq) hr

/-- **C6.** Model resolution returns an existing model exactly when some model
of the region has its training reference date in the closed window
`[as_of_date - 30 days, as_of_date]`; and any returned model belongs to that
window and carries the most recent training reference date among the
window's models. -/
theorem getNotExpired_spec (db : List Predictor) (regionId : ℕ) (date : ℤ) :
    ((getNotExpired db regionId date).isSome ↔
      ∃ p ∈ db, p.region = regionId ∧ date - EXPIRY_DAYS ≤ p.last_training_date ∧
        p.last_training_date ≤ date) ∧
    (∀ p, getNotExpired db regionId date = some p →
      p ∈ db ∧ p.region = regionId ∧ date - EXPIRY_DAYS ≤ p.last_training_date ∧
        p.last_training_date ≤ date ∧
        ∀ q ∈ db, q.region = regionId → date - EXPIRY_DAYS ≤ q.last_training_date →
          q.last_training_date ≤ date → q.last_training_date ≤ p.last_training_date) := by
  have hfilter : ∀ p : Predictor, p ∈ db.filter (notExpiredFilter regionId date) ↔
      p ∈ db ∧ p.region = regionId ∧ date - EXPIRY_DAYS ≤ p.last_training_date ∧
        p.last_training_date ≤ date := by
    intro p
    rw [List.mem_filter]
    unfold notExpiredFilter
    simp only [Bool.and_eq_true, decide_eq_true_eq]
    tauto
  constructor
  · rw [Option.isSome_iff_ne_none]
    unfold getNotExpired latestByTrainingDate
    rw [ne_eq, foldl_latestStep_eq_none_iff]
    simp only [true_and]
    constructor
    · intro hne
      obtain ⟨p, hp⟩ := List.exists_mem_of_ne_nil _ hne
      exact ⟨p, (hfilter p).mp hp⟩
    · rintro ⟨p, hp⟩
      exact List.ne_nil_of_mem ((hfilter p).mpr hp)
  · intro p hp
    unfold getNotExpired latestByTrainingDate at hp
    have hmem : p ∈ db.filter (notExpiredFilter regionId date) := by
      rcases foldl_latestStep_mem _ none p hp with h | h
      · exact h
      · cases h
    obtain ⟨hmax, -⟩ := foldl_latestStep_max _ none p hp
    obtain ⟨hdb, hreg, hlo, hhi⟩ := (hfilter p).mp hmem
    refine ⟨hdb, hreg, hlo, hhi, fun q hq hqr hqlo hqhi => ?_⟩
    exact hmax q ((hfilter q).mpr ⟨hq, hqr, hqlo, hqhi⟩)

/-- Witness for C6: a single in-window model is found and returned. -/
theorem getNotExpired_spec_witness :
    ((getNotExpired [⟨0, 5, none, none, none⟩] 0 10).isSome ↔
      ∃ p ∈ [(⟨0, 5, none, none, none⟩ : Predictor)], p.region = 0 ∧
        10 - EXPIRY_DAYS ≤ p.last_training_date ∧ p.last_training_date ≤ 10) ∧
    (∀ p, getNotExpired [⟨0, 5, none, none, none⟩] 0 10 = some p →
      p ∈ [(⟨0, 5, none, none, none⟩ : Predictor)] ∧ p.region = 0 ∧
        10 - EXPIRY_DAYS ≤ p.last_training_date ∧ p.last_training_date ≤ 10 ∧
        ∀ q ∈ [(⟨0, 5, none, none, none⟩ : Predictor)], q.region = 0 →
          10 - EXPIRY_DAYS ≤ q.last_training_date → q.last_training_date ≤ 10 →
          q.last_training_date ≤ p.last_training_date) :=
  getNotExpired_spec [⟨0, 5, none, none, none⟩] 0 10

/-! ## Concurrent model resolution (`refresh_prediction_task`, tasks.py)

When a metric has no predictor, the task resolves one:
```
try:    metric.predictor = Predictor.objects.get_not_expired(region, aware_datetime)
except Predictor.DoesNotExist:
    try:
        with transaction.atomic():
            metric.predictor = Predictor.objects.create(region_id, last_training_date=aware_datetime)
    except IntegrityError:
        metric.predictor = Predictor.objects.get_not_expired(region, aware_datetime)
```
The `unique_predictor` constraint on `(region, last_training_date)` makes the
`create` raise `IntegrityError` when a concurrent writer already inserted the
row.  We model two writers running this block concurrently against a shared
predictor table, with the lookup and the create as the atomic database steps,
and quantify over every interleaving (schedule). -/

/-- A freshly created, untrained predictor row for `(regionId, date)`. -/
def newPred (regionId : ℕ) (date : ℤ) : Predictor := ⟨regionId, date, none, none, none⟩

/-- `Predictor.objects.create(region_id, last_training_date)`: appends an
untrained row, or raises `IntegrityError` (`Except.error`) when a row with the
same `(region, last_training_date)` exists (`unique_predictor`). -/
def createPredictor (db : List Predictor) (regionId : ℕ) (date : ℤ) :
    Except Unit (List Predictor × Predictor) :=
  if db.any (fun p => decide (p.region = regionId) && decide (p.last_training_date = date)) then
    Except.error ()
  else
    Except.ok (db ++ [newPred regionId date], newPred regionId date)

/-- The control point of one writer inside the resolution block.  `failed`
models the uncaught `DoesNotExist` of the re-lookup after a conflict. -/
inductive WriterState where
  | beforeLookup
  | beforeCreate
  | beforeRelookup
  | failed
  | done (p : Predictor)
deriving DecidableEq

/-- One atomic database step of one writer of the resolution block. -/
def writerStep (regionId : ℕ) (date : ℤ) (db : List Predictor) (w : WriterState) :
    List Predictor × WriterState :=
  match w with
  | .beforeLookup =>
    match getNotExpired db regionId date with
    | some p => (db, .done p)
    | none => (db, .beforeCreate)
  | .beforeCreate =>
    match createPredictor db regionId date with
    | .ok (db2, p) => (db2, .done p)
    | .error _ => (db, .beforeRelookup)
  | .beforeRelookup =>
    match getNotExpired db regionId date with
    | some p => (db, .done p)
    | none => (db, .failed)
  | .failed => (db, .failed)
  | .done p => (db, .done p)

/-- The shared table plus the two writers' control points. -/
structure RaceConfig where
  db : List Predictor
  a : WriterState
  b : WriterState
deriving DecidableEq

/-- Run one step of writer `a` (`who = true`) or writer `b` (`who = false`). -/
def raceStep (regionId : ℕ) (date : ℤ) (c : RaceConfig) (who : Bool) : RaceConfig :=
  if who then
    let s := writerStep regionId date c.db c.a
    ⟨s.1, s.2, c.b⟩
  else
    let s := writerStep regionId date c.db c.b
    ⟨s.1, c.a, s.2⟩

/-- Run an arbitrary interleaving of the two writers. -/
def raceRun (regionId : ℕ) (date : ℤ) (sched : List Bool) (c : RaceConfig) : RaceConfig :=
  sched.foldl (raceStep regionId date) c

/-- Both writers start at the lookup, with no predictor rows. -/
def raceInit : RaceConfig := ⟨[], .beforeLookup, .beforeLookup⟩

lemma getNotExpired_nil (regionId : ℕ) (date : ℤ) : getNotExpired [] regionId date = none := rfl

lemma getNotExpired_self (regionId : ℕ) (date : ℤ) :
    getNotExpired [newPred regionId date] regionId date = some (newPred regionId date) := by
  have h1 : decide (regionId = regionId) = true := by simp
  have h2 : decide (date ≤ date) = true := by simp
  have h3 : decide (date - EXPIRY_DAYS ≤ date) = true := by
    simp only [decide_eq_true_eq, EXPIRY_DAYS]
    omega
  have hf : notExpiredFilter regionId date (newPred regionId date) = true := by
    show (decide (regionId = regionId) && decide (date ≤ date) &&
      decide (date - EXPIRY_DAYS ≤ date)) = true
    rw [h1, h2, h3]
    rfl
  unfold getNotExpired
  rw [List.filter_cons_of_pos hf, List.filter_nil]
  rfl

lemma createPredictor_nil (regionId : ℕ) (date : ℤ) :
    createPredictor [] regionId date = .ok ([newPred regionId date], newPred regionId date) := rfl

lemma createPredictor_conflict (regionId : ℕ) (date : ℤ) :
    createPredictor [newPred regionId date] regionId date = .error () := by
  simp [createPredictor, newPred]

/-- A writer control point compatible with the one-row table: anywhere in the
block, or done referencing the surviving row. -/
def okWriter (regionId : ℕ) (date : ℤ) (w : WriterState) : Prop :=
  w = .beforeLookup ∨ w = .beforeCreate ∨ w = .beforeRelookup ∨
    w = .done (newPred regionId date)

/-- The race invariant: either no row exists yet and both writers are before
their create, or exactly the one row `(regionId, date)` exists and every
writer either is still inside the block or references that row. -/
def RaceInv (regionId : ℕ) (date : ℤ) (c : RaceConfig) : Prop :=
  (c.db = [] ∧ (c.a = .beforeLookup ∨ c.a = .beforeCreate) ∧
    (c.b = .beforeLookup ∨ c.b = .beforeCreate)) ∨
  (c.db = [newPred regionId date] ∧ okWriter regionId date c.a ∧ okWriter regionId date c.b)

lemma writerStep_nil_inv (regionId : ℕ) (date : ℤ) (w : WriterState)
    (hw : w = .beforeLookup ∨ w = .beforeCreate) :
    (writerStep regionId date [] w = ([], .beforeCreate) ∧ w = .beforeLookup) ∨
    (writerStep regionId date [] w =
      ([newPred regionId date], .done (newPred regionId date)) ∧ w = .beforeCreate) := by
  rcases hw with hw | hw <;> subst hw
  · left
    refine ⟨?_, rfl⟩
    simp [writerStep, getNotExpired_nil]
  · right
    refine ⟨?_, rfl⟩
    simp [writerStep, createPredictor_nil]

lemma writerStep_one_inv (regionId : ℕ) (date : ℤ) (w : WriterState)
    (hw : okWriter regionId date w) :
    (writerStep regionId date [newPred regionId date] w).1 = [newPred regionId date] ∧
    okWriter regionId date (writerStep regionId date [newPred regionId date] w).2 := by
  rcases hw with hw | hw | hw | hw <;> subst hw
  · rw [writerStep, getNotExpired_self]
    exact ⟨rfl, Or.inr (Or.inr (Or.inr rfl))⟩
  · rw [writerStep, createPredictor_conflict]
    exact ⟨rfl, Or.inr (Or.inr (Or.inl rfl))⟩
  · rw [writerStep, getNotExpired_self]
    exact ⟨rfl, Or.inr (Or.inr (Or.inr rfl))⟩
  · exact ⟨rfl, Or.inr (Or.inr (Or.inr rfl))⟩

lemma raceStep_inv (regionId : ℕ) (date : ℤ) (c : RaceConfig) (who : Bool)
    (h : RaceInv regionId date c) : RaceInv regionId date (raceStep regionId date c who) := by
  obtain ⟨db, a, b⟩ := c
  cases who
  · have hstep : raceStep regionId date ⟨db, a, b⟩ false =
        ⟨(writerStep regionId date db b).1, a, (writerStep regionId date db b).2⟩ := rfl
    rw [hstep]
    rcases h with ⟨hdb, ha, hb⟩ | ⟨hdb, ha, hb⟩ <;> subst hdb
    · rcases writerStep_nil_inv regionId date b hb with ⟨hs, -⟩ | ⟨hs, -⟩
      · rw [hs]
        exact Or.inl ⟨rfl, ha, Or.inr rfl⟩
      · rw [hs]
        refine Or.inr ⟨rfl, ?_, Or.inr (Or.inr (Or.inr rfl))⟩
        rcases ha with ha | ha <;> subst ha
        · exact Or.inl rfl
        · exact Or.inr (Or.inl rfl)
    · obtain ⟨hs1, hs2⟩ := writerStep_one_inv regionId date b hb
      exact Or.inr ⟨hs1, ha, hs2⟩
  · have hstep : raceStep regionId date ⟨db, a, b⟩ true =
        ⟨(writerStep regionId date db a).1, (writerStep regionId date db a).2, b⟩ := rfl
    rw [hstep]
    rcases h with ⟨hdb, ha, hb⟩ | ⟨hdb, ha, hb⟩ <;> subst hdb
    · rcases writerStep_nil_inv regionId date a ha with ⟨hs, -⟩ | ⟨hs, -⟩
      · rw [hs]
        exact Or.inl ⟨rfl, Or.inr rfl, hb⟩
      · rw [hs]
        refine Or.inr ⟨rfl, Or.inr (Or.inr (Or.inr rfl)), ?_⟩
        rcases hb with hb | hb <;> subst hb
        · exact Or.inl rfl
        · exact Or.inr (Or.inl rfl)
    · obtain ⟨hs1, hs2⟩ := writerStep_one_inv regionId date a ha
      exact Or.inr ⟨hs1, hs2, hb⟩

lemma raceRun_inv (regionId : ℕ) (date : ℤ) (sched : List Bool) :
    ∀ c, RaceInv regionId date c → RaceInv regionId date (raceRun regionId date sched c) := by
  induction sched with
  | nil => intro c h; exact h
  | cons who rest ih =>
    intro c h
    exact ih (raceStep regionId date c who) (raceStep_inv regionId date c who h)

/-- **C7.** Two concurrent executions of the resolve-or-create block for the
same `(region, reference date)`, under *any* interleaving of their database
steps, end with exactly one predictor row for that `(region,
last_training_date)` in the table, and — conflict losers having discarded
their creation and re-resolved — both writers referencing that surviving
row. -/
theorem resolve_or_create_race (regionId : ℕ) (date : ℤ) (sched : List Bool)
    (db : List Predictor) (pA pB : Predictor)
    (h : raceRun regionId date sched raceInit = ⟨db, .done pA, .done pB⟩) :
    db = [newPred regionId date] ∧ pA = newPred regionId date ∧ pB = newPred regionId date := by
  have hinv := raceRun_inv regionId date sched raceInit
    (Or.inl ⟨rfl, Or.inl rfl, Or.inl rfl⟩)
  rw [h] at hinv
  rcases hinv with ⟨-, ha, -⟩ | ⟨hdb, ha, hb⟩
  · rcases ha with ha | ha <;> cases ha
  · refine ⟨hdb, ?_, ?_⟩
    · rcases ha with ha | ha | ha | ha
      · cases ha
      · cases ha
      · cases ha
      · exact WriterState.done.inj ha
    · rcases hb with hb | hb | hb | hb
      · cases hb
      · cases hb
      · cases hb
      · exact WriterState.done.inj hb

/-- Witness for C7: the strictly alternating schedule in which both writers
miss the lookup, writer `a` wins the create, and writer `b` hits the
uniqueness violation and re-resolves. -/
theorem resolve_or_create_race_witness :
    [newPred 0 0] = [newPred 0 0] ∧ newPred 0 0 = newPred 0 0 ∧ newPred 0 0 = newPred 0 0 :=
  resolve_or_create_race 0 0 [true, false, true, false, true, false]
    [newPred 0 0] (newPred 0 0) (newPred 0 0) (by decide)

/-! ## Observations, progress recomputation and batch prediction
(`Metric`, `MetricPredictionProgress.refresh`, models.py;
`batch_update_metrics_for_predictor_task`, tasks.py;
`generate_date_range`, utils/datetime.py) -/

/-- One stored `Metric` row, with its nullable prediction fields. -/
structure MetricRow where
  id : ℕ
  region : ℕ
  predictor : Option ℕ
  date : ℤ
  value : Option ℚ
  predicted_value : Option ℚ
  lower_value : Option ℚ
  upper_value : Option ℚ
deriving DecidableEq

/-- The success fraction computed by `MetricPredictionProgress.refresh(date)`:
`total = Metric.objects.filter(date=date).count()`,
`total_finished = …filter(predicted_value__isnull=False).count()`,
`perc = total_finished / total if total > 0 else 0`.
(The surrounding row lock and `update_or_create` only store this value.) -/
def successFraction (db : List MetricRow) (date : ℤ) : ℚ :=
  let ms := db.filter (fun m => decide (m.date = date))
  let total := ms.length
  let total_finished := (ms.filter (fun m => m.predicted_value.isSome)).length
  if 0 < total then (total_finished : ℚ) / (total : ℚ) else 0

/-- **C8.** Progress recomputation sets the success fraction to (observations
of the date with a non-null predicted value) ÷ (all observations of the
date), 0 when the date has no observations; and the stored fraction is always
in `[0, 1]`. -/
theorem successFraction_spec (db : List MetricRow) (date : ℤ) :
    ((db.filter (fun m => decide (m.date = date))).length = 0 →
      successFraction db date = 0) ∧
    (0 < (db.filter (fun m => decide (m.date = date))).length →
      successFraction db date =
        (((db.filter (fun m => decide (m.date = date))).filter
            (fun m => m.predicted_value.isSome)).length : ℚ) /
          ((db.filter (fun m => decide (m.date = date))).length : ℚ)) ∧
    0 ≤ successFraction db date ∧ successFraction db date ≤ 1 := by
  have hsf : successFraction db date =
      if 0 < (db.filter (fun m => decide (m.date = date))).length then
        ((((db.filter (fun m => decide (m.date = date))).filter
            (fun m => m.predicted_value.isSome)).length : ℚ) /
          (((db.filter (fun m => decide (m.date = date))).length : ℚ)))
      else 0 := rfl
  have hle : (((db.filter (fun m => decide (m.date = date))).filter
      (fun m => m.predicted_value.isSome)).length : ℕ) ≤
      (db.filter (fun m => decide (m.date = date))).length :=
    List.length_filter_le _ _
  refine ⟨fun h0 => ?_, fun hpos => ?_, ?_, ?_⟩
  · rw [hsf, if_neg (by omega)]
  · rw [hsf, if_pos hpos]
  · rw [hsf]
    split
    · positivity
    · exact le_refl 0
  · rw [hsf]
    split
    · rename_i hpos
      rw [div_le_one (by exact_mod_cast hpos)]
      exact_mod_cast hle
    · exact zero_le_one

/-- Ten observations of one date, six of them with a non-null prediction. -/
def tenMetricsSixPredicted : List MetricRow :=
  [⟨0, 0, none, 0, some 1, some 1, none, none⟩,
   ⟨1, 0, none, 0, some 1, some 1, none, none⟩,
   ⟨2, 0, none, 0, some 1, some 1, none, none⟩,
   ⟨3, 0, none, 0, some 1, some 1, none, none⟩,
   ⟨4, 0, none, 0, some 1, some 1, none, none⟩,
   ⟨5, 0, none, 0, some 1, some 1, none, none⟩,
   ⟨6, 0, none, 0, some 1, none, none, none⟩,
   ⟨7, 0, none, 0, some 1, none, none, none⟩,
   ⟨8, 0, none, 0, some 1, none, none, none⟩,
   ⟨9, 0, none, 0, some 1, none, none, none⟩]

/-- Witness for C8: 10 observations, 6 with a non-null prediction, give the
fraction 6/10 = 0.6, inside `[0, 1]`. -/
theorem successFraction_spec_witness :
    successFraction tenMetricsSixPredicted 0 = 6 / 10 ∧
    0 ≤ successFraction tenMetricsSixPredicted 0 ∧
    successFraction tenMetricsSixPredicted 0 ≤ 1 := by
  obtain ⟨-, h2, h3, h4⟩ := successFraction_spec tenMetricsSixPredicted 0
  refine ⟨?_, h3, h4⟩
  rw [h2 (by decide)]
  norm_num [tenMetricsSixPredicted]

/-- `generate_date_range(start, end)`: all dates from `start` to `end`
inclusive, in one-day steps. -/
def generateDateRange (fromD toD : ℤ) : List ℤ :=
  (List.range (toD + 1 - fromD).toNat).map (fun i : ℕ => fromD + (i : ℤ))

lemma mem_generateDateRange (fromD toD d : ℤ) :
    d ∈ generateDateRange fromD toD ↔ fromD ≤ d ∧ d ≤ toD := by
  simp only [generateDateRange, List.mem_map, List.mem_range]
  constructor
  · rintro ⟨i, hi, rfl⟩
    omega
  · rintro ⟨h1, h2⟩
    exact ⟨(d - fromD).toNat, by omega, by omega⟩

/-- `predictor.metrics.filter(date__gte=from_date, date__lte=to_date)`: the
observations owned by the predictor inside the date window (the source builds
a date-keyed dict of them; `(region, date)` uniqueness makes dates distinct). -/
def predictorMetrics (db : List MetricRow) (pid : ℕ) (fromD toD : ℤ) : List MetricRow :=
  db.filter (fun m =>
    decide (m.predictor = some pid) && decide (fromD ≤ m.date) && decide (m.date ≤ toD))

/-- The `metric_to_update` list of `batch_update_metrics_for_predictor_task`:
for each prediction result whose date has a matching observation of the
predictor in the window, that observation with its `predicted_value`,
`upper_value` and `lower_value` overwritten from the result. -/
def updatesForResults (db : List MetricRow) (pid : ℕ) (fromD toD : ℤ)
    (results : List PredictionResult) : List MetricRow :=
  results.filterMap (fun r =>
    ((predictorMetrics db pid fromD toD).find? (fun m => decide (m.date = r.datetime))).map
      (fun m =>
        { m with
          predicted_value := some r.yhat
          upper_value := some r.yhat_upper
          lower_value := some r.yhat_lower }))

/-- `batch_update_metrics_for_predictor_task`, given the prediction results
the predictor produced for the window: when `metric_to_update` is non-empty,
bulk-write the updates and refresh the progress record of every date of the
window; otherwise change nothing.  Returns the new observation table and the
list of dates whose progress record was recomputed. -/
def batchUpdateMetrics (db : List MetricRow) (pid : ℕ) (fromD toD : ℤ)
    (results : List PredictionResult) : List MetricRow × List ℤ :=
  let upd := updatesForResults db pid fromD toD results
  if upd.isEmpty then (db, [])
  else
    (db.map (fun m =>
      match upd.find? (fun u => decide (u.id = m.id)) with
      | some u => u
      | none => m),
     generateDateRange fromD toD)

/-- **C9.** After a per-model batch prediction updates its observations, the
progress record is recomputed for every date touched by the update (each
updated observation's date is among the refreshed dates); and when the window
has no matching observation for the model, no observation is updated and no
progress record is refreshed. -/
theorem batchUpdate_refreshes_touched_dates (db : List MetricRow) (pid : ℕ)
    (fromD toD : ℤ) (results : List PredictionResult) :
    (predictorMetrics db pid fromD toD = [] →
      batchUpdateMetrics db pid fromD toD results = (db, [])) ∧
    (∀ u ∈ updatesForResults db pid fromD toD results,
      u.date ∈ (batchUpdateMetrics db pid fromD toD results).2) := by
  constructor
  · intro hempty
    have hupd : updatesForResults db pid fromD toD results = [] := by
      unfold updatesForResults
      rw [hempty]
      induction results with
      | nil => rfl
      | cons r rs ih => simp [ih]
    unfold batchUpdateMetrics
    rw [hupd]
    rfl
  · intro u hu
    have hne : updatesForResults db pid fromD toD results ≠ [] :=
      List.ne_nil_of_mem hu
    have hsnd : (batchUpdateMetrics db pid fromD toD results).2 =
        generateDateRange fromD toD := by
      unfold batchUpdateMetrics
      rw [if_neg (by simpa [List.isEmpty_iff] using hne)]
    rw [hsnd]
    obtain ⟨r, -, hr⟩ := List.mem_filterMap.mp hu
    obtain ⟨m, hfind, hmap⟩ := Option.map_eq_some'.mp hr
    have hmem : m ∈ predictorMetrics db pid fromD toD :=
      List.mem_of_find?_eq_some hfind
    have hcond := List.of_mem_filter hmem
    simp only [Bool.and_eq_true, decide_eq_true_eq] at hcond
    have hdate : u.date = m.date := by rw [← hmap]
    rw [mem_generateDateRange, hdate]
    exact ⟨hcond.1.2, hcond.2⟩

/-- Witness for C9: an empty observation table means no matching observation,
no update and no refreshed progress date. -/
theorem batchUpdate_refreshes_touched_dates_witness :
    batchUpdateMetrics [] 0 0 5 [⟨0, 0, 0, 0⟩] = ([], []) :=
  (batchUpdate_refreshes_touched_dates [] 0 0 5 [⟨0, 0, 0, 0⟩]).1 rfl

/-! ## NaN normalization on save (`Metric.save`, models.py)

```
if self.value is not None and math.isnan(self.value):
    self.value = None
super().save(*args, **kwargs)
```
-/

/-- A Python float as far as `math.isnan` distinguishes it: NaN, or an
ordinary non-NaN numeric value, embedded as a rational. -/
inductive FloatVal where
  | nan
  | num (q : ℚ)
deriving DecidableEq

/-- `math.isnan`. -/
def FloatVal.isnan : FloatVal → Bool
  | .nan => true
  | .num _ => false

/-- The `value` field as `Metric.save` persists it: a non-null NaN is
normalized to null before `super().save()` runs; everything else is stored
unchanged.  (The post-save enqueue of the prediction refresh does not touch
the stored fields.) -/
def metricSaveValue (value : Option FloatVal) : Option FloatVal :=
  match value with
  | some x => if FloatVal.isnan x then none else some x
  | none => none

/-- **C10.** Every save of an Observation normalizes a NaN observed value to
null, so the persisted value field is either null or a non-NaN number. -/
theorem metricSave_value_none_or_not_nan (value : Option FloatVal) :
    metricSaveValue (some FloatVal.nan) = none ∧
    (metricSaveValue value = none ∨ ∃ q, metricSaveValue value = some (FloatVal.num q)) := by
  refine ⟨rfl, ?_⟩
  match value with
  | none => exact Or.inl rfl
  | some .nan => exact Or.inl rfl
  | some (.num q) => exact Or.inr ⟨q, rfl⟩

end MetricsBackend
